import Mathlib

/-!
Shallow embedding of the stop-string detection and streaming-generation core
of `mlx_engine` (files `stop_string_processor.py` and `generate.py`).

Python strings are modelled as `List Char`, token ids as `Int`.  Statuses are
the literal strings the source uses (`"full_stop"`, `"partial_match"`,
`"no_match"`), since the Python code stores and compares them as strings.
-/

namespace MlxEngine

/-- Python strings, modelled as lists of characters so that slicing-based
code (`s[-i:]`, `s[:i]`, `str.find`) has a direct translation. -/
abbrev Str := List Char

/-- `sequence_overlap(s1, s2)` from `stop_string_processor.py`:
`any(s1[-i:] == s2[:i] for i in range(1, min(len(s1), len(s2)) + 1))`.
The Python generic `Sequence` becomes a type parameter. -/
def sequence_overlap {α : Type} [DecidableEq α] (s1 s2 : List α) : Bool :=
  (List.range (min s1.length s2.length)).any fun j =>
    decide (s1.drop (s1.length - (j + 1)) = s2.take (j + 1))

/-- Python `string.find(sub)`: lowest index at which `sub` occurs in `string`,
`none` standing for Python's `-1`.  The empty pattern is found at index 0. -/
def strFind (s sub : Str) : Option Nat :=
  (List.range (s.length + 1)).find? fun i => decide (sub <+: s.drop i)

/-- `StoppingCriteriaResult` from `stop_string_processor.py`: status plus the
stop string populated when the status is `"full_stop"`. -/
structure StoppingCriteriaResult where
  status : String
  stop_string : Option Str
deriving DecidableEq, Repr

/-- Accumulator step of the `for stop_string in stop_strings` loop inside
`check_full_text_match`: keep the earliest match, strictly earlier positions
replacing the current best (`position < earliest_match["position"]`).
`none` is the initial `{"position": inf, "stop_string": None}` accumulator. -/
def ftm_step (s : Str) (acc : Option (Nat × Str)) (stop_string : Str) :
    Option (Nat × Str) :=
  match strFind s stop_string with
  | none => acc
  | some position =>
    match acc with
    | none => some (position, stop_string)
    | some best => if position < best.1 then some (position, stop_string) else acc

/-- `check_full_text_match` from `stop_string_processor.py`: find the earliest
full text match of any stop string, ties on position keeping the
first-configured stop string. -/
def check_full_text_match (string : Str) (stop_strings : List Str) :
    Option StoppingCriteriaResult :=
  match stop_strings.foldl (ftm_step string) none with
  | none => none
  | some best => some ⟨"full_stop", some best.2⟩

/-- `check_partial_token_match` from `stop_string_processor.py`: report a
partial match when the token buffer suffix overlaps a stop token sequence
prefix; the loop returns on the first overlapping sequence. -/
def check_partial_token_match (token_sequence : List Int)
    (stop_token_sequences : List (List Int)) : Option StoppingCriteriaResult :=
  ((stop_token_sequences.find? fun sts => sequence_overlap token_sequence sts).map
    fun _ => ⟨"partial_match", none⟩)

/-- `check_partial_text_match` from `stop_string_processor.py`. (The Python
annotates its result with the processor result type, but only the shared
`status`/`stop_string` fields are ever read, so it is modelled with
`StoppingCriteriaResult`.) -/
def check_partial_text_match (string : Str) (stop_strings : List Str) :
    Option StoppingCriteriaResult :=
  ((stop_strings.find? fun stop_string => sequence_overlap string stop_string).map
    fun _ => ⟨"partial_match", none⟩)

/-- `stopping_criteria` from `stop_string_processor.py`: the Python
`A or B or C or default` chain over the three checks (each check returns
`None` or an always-truthy named tuple), so the first non-`None` result wins. -/
def stopping_criteria (string : Str) (token_sequence : List Int)
    (stop_strings : List Str) (stop_token_sequences : List (List Int)) :
    StoppingCriteriaResult :=
  (((check_full_text_match string stop_strings).orElse fun _ =>
    (check_partial_token_match token_sequence stop_token_sequences).orElse fun _ =>
      check_partial_text_match string stop_strings).getD
    ⟨"no_match", none⟩)

/-! ### Helper lemmas about the three checks -/

theorem ftm_step_isSome (s : Str) (x : Nat × Str) (ss : Str) :
    ∃ y, ftm_step s (some x) ss = some y := by
  unfold ftm_step
  cases strFind s ss with
  | none => exact ⟨x, rfl⟩
  | some position =>
    by_cases h : position < x.1
    · exact ⟨(position, ss), by simp [h]⟩
    · exact ⟨x, by simp [h]⟩

theorem ftm_fold_isSome (s : Str) (l : List Str) (x : Nat × Str) :
    ∃ y, l.foldl (ftm_step s) (some x) = some y := by
  induction l generalizing x with
  | nil => exact ⟨x, rfl⟩
  | cons hd tl ih =>
    obtain ⟨y, hy⟩ := ftm_step_isSome s x hd
    rw [List.foldl_cons, hy]
    exact ih y

theorem ftm_fold_none_iff (s : Str) (l : List Str) :
    l.foldl (ftm_step s) none = none ↔ ∀ ss ∈ l, strFind s ss = none := by
  induction l with
  | nil => simp
  | cons hd tl ih =>
    rw [List.foldl_cons]
    cases hf : strFind s hd with
    | none =>
      have hstep : ftm_step s none hd = none := by unfold ftm_step; rw [hf]
      rw [hstep, ih]
      constructor
      · intro h ss hss
        rcases List.mem_cons.mp hss with h1 | h1
        · exact h1 ▸ hf
        · exact h ss h1
      · intro h ss hss
        exact h ss (List.mem_cons_of_mem hd hss)
    | some position =>
      have hstep : ftm_step s none hd = some (position, hd) := by
        unfold ftm_step; rw [hf]
      rw [hstep]
      obtain ⟨y, hy⟩ := ftm_fold_isSome s tl (position, hd)
      rw [hy]
      simp only [reduceCtorEq, false_iff, not_forall]
      exact ⟨hd, List.mem_cons_self hd tl, by rw [hf]; exact fun h => by cases h⟩

theorem ftm_fold_keep (s : Str) (l : List Str) (p : Nat) (ss : Str)
    (h : ∀ x ∈ l, ∀ q, strFind s x = some q → p ≤ q) :
    l.foldl (ftm_step s) (some (p, ss)) = some (p, ss) := by
  induction l with
  | nil => rfl
  | cons hd tl ih =>
    rw [List.foldl_cons]
    have hstep : ftm_step s (some (p, ss)) hd = some (p, ss) := by
      unfold ftm_step
      cases hf : strFind s hd with
      | none => rfl
      | some q =>
        have hpq : p ≤ q := h hd (List.mem_cons_self hd tl) q hf
        simp [Nat.not_lt.mpr hpq]
    rw [hstep]
    exact ih fun x hx q hq => h x (List.mem_cons_of_mem hd hx) q hq

theorem ftm_fold_gt (s : Str) (l : List Str) (p : Nat) :
    ∀ acc : Option (Nat × Str),
      (∀ y, acc = some y → p < y.1) →
      (∀ x ∈ l, ∀ q, strFind s x = some q → p < q) →
      ∀ y, l.foldl (ftm_step s) acc = some y → p < y.1 := by
  induction l with
  | nil => intro acc hacc _ y hy; exact hacc y hy
  | cons hd tl ih =>
    intro acc hacc h y hy
    rw [List.foldl_cons] at hy
    refine ih (ftm_step s acc hd) ?_ (fun x hx q hq => h x (List.mem_cons_of_mem hd hx) q hq) y hy
    intro z hz
    unfold ftm_step at hz
    cases hf : strFind s hd with
    | none => rw [hf] at hz; exact hacc z hz
    | some q =>
      have hpq : p < q := h hd (List.mem_cons_self hd tl) q hf
      rw [hf] at hz
      cases hc : acc with
      | none => rw [hc] at hz; cases hz; exact hpq
      | some best =>
        rw [hc] at hz
        by_cases hlt : q < best.1
        · simp only [hlt, if_true] at hz; cases hz; exact hpq
        · simp only [hlt, if_false] at hz; exact hacc z (hc.trans hz)

theorem cftm_some_status (s : Str) (l : List Str) (r : StoppingCriteriaResult)
    (h : check_full_text_match s l = some r) : r.status = "full_stop" := by
  unfold check_full_text_match at h
  cases hf : l.foldl (ftm_step s) none with
  | none => rw [hf] at h; cases h
  | some best => rw [hf] at h; cases h; rfl

theorem cftm_none_iff (s : Str) (l : List Str) :
    check_full_text_match s l = none ↔ ∀ ss ∈ l, strFind s ss = none := by
  unfold check_full_text_match
  cases hf : l.foldl (ftm_step s) none with
  | none => simpa using (ftm_fold_none_iff s l).mp hf
  | some best =>
    simp only [reduceCtorEq, false_iff, not_forall]
    have : ¬ l.foldl (ftm_step s) none = none := by rw [hf]; exact fun h => by cases h
    rw [ftm_fold_none_iff] at this
    push_neg at this
    obtain ⟨ss, hss, hfind⟩ := this
    exact ⟨ss, hss, hfind⟩

theorem cftm_earliest (s : Str) (pre post : List Str) (ss : Str) (p : Nat)
    (hfind : strFind s ss = some p)
    (hmin : ∀ x ∈ pre ++ ss :: post, ∀ q, strFind s x = some q → p ≤ q)
    (hfirst : ∀ x ∈ pre, ∀ q, strFind s x = some q → p < q) :
    check_full_text_match s (pre ++ ss :: post) = some ⟨"full_stop", some ss⟩ := by
  have hwin : ∀ acc : Option (Nat × Str), (∀ y, acc = some y → p < y.1) →
      ftm_step s acc ss = some (p, ss) := by
    intro acc hacc
    unfold ftm_step
    rw [hfind]
    cases acc with
    | none => rfl
    | some best => simp [hacc best rfl]
  unfold check_full_text_match
  rw [List.foldl_append, List.foldl_cons,
    hwin (pre.foldl (ftm_step s) none)
      (ftm_fold_gt s pre p none (fun y hy => by cases hy) hfirst),
    ftm_fold_keep s post p ss
      (fun x hx q hq => hmin x (List.mem_append_right pre (List.mem_cons_of_mem ss hx)) q hq)]

theorem cptm_eq_some (ts : List Int) (stss : List (List Int))
    (h : ∃ sts ∈ stss, sequence_overlap ts sts = true) :
    check_partial_token_match ts stss = some ⟨"partial_match", none⟩ := by
  unfold check_partial_token_match
  obtain ⟨y, hy⟩ := Option.isSome_iff_exists.mp (List.find?_isSome.mpr h)
  rw [hy]
  rfl

theorem cptm_eq_none (ts : List Int) (stss : List (List Int))
    (h : ¬ ∃ sts ∈ stss, sequence_overlap ts sts = true) :
    check_partial_token_match ts stss = none := by
  unfold check_partial_token_match
  rw [List.find?_eq_none.mpr (by push_neg at h; simpa using h)]
  rfl

theorem cptxt_eq_some (s : Str) (sss : List Str)
    (h : ∃ ss ∈ sss, sequence_overlap s ss = true) :
    check_partial_text_match s sss = some ⟨"partial_match", none⟩ := by
  unfold check_partial_text_match
  obtain ⟨y, hy⟩ := Option.isSome_iff_exists.mp (List.find?_isSome.mpr h)
  rw [hy]
  rfl

theorem cptxt_eq_none (s : Str) (sss : List Str)
    (h : ¬ ∃ ss ∈ sss, sequence_overlap s ss = true) :
    check_partial_text_match s sss = none := by
  unfold check_partial_text_match
  rw [List.find?_eq_none.mpr (by push_neg at h; simpa using h)]
  rfl

/-- C7: `sequence_overlap a b` is true exactly when some length `i` with
`1 ≤ i ≤ min |a| |b|` makes the length-`i` suffix of `a` equal the length-`i`
prefix of `b`; the existential characterisation is order-independent and the
function is pure. -/
theorem sequence_overlap_iff {α : Type} [DecidableEq α] (s1 s2 : List α) :
    sequence_overlap s1 s2 = true ↔
      ∃ i, 1 ≤ i ∧ i ≤ min s1.length s2.length ∧
        s1.drop (s1.length - i) = s2.take i := by
  unfold sequence_overlap
  rw [List.any_eq_true]
  constructor
  · rintro ⟨j, hj, hdec⟩
    rw [List.mem_range] at hj
    exact ⟨j + 1, by omega, by omega, of_decide_eq_true hdec⟩
  · rintro ⟨i, h1, h2, heq⟩
    refine ⟨i - 1, List.mem_range.mpr (by omega), ?_⟩
    have hi : i - 1 + 1 = i := by omega
    rw [hi, heq]
    exact decide_eq_true rfl

/-- `StopStringProcessorResult` from `stop_string_processor.py`: status plus
stop string and stop tokens, the latter two populated on `"full_stop"`. -/
structure StopStringProcessorResult where
  status : String
  stop_string : Option Str
  stop_tokens : Option (List Int)
deriving Repr

/-- `StopStringProcessor` from `stop_string_processor.py`.  The Python object
holds the configured stop strings, their encodings, the tokenizer and the
rolling token-id buffer; the tokenizer is modelled by its `decode` function
(the only tokenizer operation `process_token` uses). -/
structure StopStringProcessor where
  stop_strings : List Str
  stop_token_sequences : List (List Int)
  tokenizer_decode : List Int → Str
  token_id_buffer : List Int

/-- `StopStringProcessor.__init__`: stop token sequences are the encodings of
the stop strings, and the buffer starts empty. -/
def StopStringProcessor.init (stop_strings : List Str)
    (tokenizer_encode : Str → List Int) (tokenizer_decode : List Int → Str) :
    StopStringProcessor :=
  ⟨stop_strings, stop_strings.map tokenizer_encode, tokenizer_decode, []⟩

/-- The `if/elif/elif/else` dispatch at the end of
`StopStringProcessor.process_token`, applied to an evaluator result (the
token-id buffer has already been appended to): clear the buffer and report
no-match, retain it on a partial match, report the matched stop string and
the entire buffer on a full stop, and raise on any other status. -/
def StopStringProcessor.resolve (self : StopStringProcessor)
    (result : StoppingCriteriaResult) :
    Except String (StopStringProcessorResult × StopStringProcessor) :=
  if result.status = "no_match" then
    .ok (⟨"no_match", none, none⟩, { self with token_id_buffer := [] })
  else if result.status = "partial_match" then
    .ok (⟨"partial_match", none, none⟩, self)
  else if result.status = "full_stop" then
    .ok (⟨"full_stop", result.stop_string, some self.token_id_buffer⟩, self)
  else
    .error ("Unknown StopProcessorStatus: " ++ result.status)

/-- `StopStringProcessor.process_token` from `stop_string_processor.py`:
fast-path no-match when no stop strings are configured; otherwise append the
token to the buffer, run `stopping_criteria` on the buffer and its decoded
text, and dispatch on the resulting status.  Python's in-place mutation of
`self` becomes returning the updated processor; the `raise ValueError`
becomes the `Except.error` branch of `resolve`. -/
def StopStringProcessor.process_token (self : StopStringProcessor)
    (tokens : Int) :
    Except String (StopStringProcessorResult × StopStringProcessor) :=
  if self.stop_strings.length = 0 then
    .ok (⟨"no_match", none, none⟩, self)
  else
    (StopStringProcessor.resolve
      { self with token_id_buffer := self.token_id_buffer ++ [tokens] }
      (stopping_criteria
        (self.tokenizer_decode (self.token_id_buffer ++ [tokens]))
        (self.token_id_buffer ++ [tokens])
        self.stop_strings self.stop_token_sequences))

theorem resolve_no_match (st : StopStringProcessor)
    (result : StoppingCriteriaResult) (h : result.status = "no_match") :
    st.resolve result = .ok (⟨"no_match", none, none⟩,
      { st with token_id_buffer := [] }) := by
  simp [StopStringProcessor.resolve, h]

theorem resolve_partial_match (st : StopStringProcessor)
    (result : StoppingCriteriaResult) (h : result.status = "partial_match") :
    st.resolve result = .ok (⟨"partial_match", none, none⟩, st) := by
  simp [StopStringProcessor.resolve, h]

theorem resolve_full (st : StopStringProcessor)
    (result : StoppingCriteriaResult) (h : result.status = "full_stop") :
    st.resolve result =
      .ok (⟨"full_stop", result.stop_string, some st.token_id_buffer⟩, st) := by
  simp [StopStringProcessor.resolve, h]

theorem process_token_unfold (st : StopStringProcessor) (t : Int)
    (hne : st.stop_strings ≠ []) :
    st.process_token t =
      (StopStringProcessor.resolve
        { st with token_id_buffer := st.token_id_buffer ++ [t] }
        (stopping_criteria (st.tokenizer_decode (st.token_id_buffer ++ [t]))
          (st.token_id_buffer ++ [t]) st.stop_strings
          st.stop_token_sequences)) := by
  unfold StopStringProcessor.process_token
  rw [if_neg (by simpa [List.length_eq_zero] using hne)]

theorem stopping_criteria_of_full (s : Str) (ts : List Int) (sss : List Str)
    (stss : List (List Int)) (r : StoppingCriteriaResult)
    (h : check_full_text_match s sss = some r) :
    stopping_criteria s ts sss stss = r := by
  unfold stopping_criteria
  rw [h]
  rfl

theorem strFind_nil (s : Str) : strFind s [] = some 0 := by
  unfold strFind
  rw [List.range_succ_eq_map]
  exact List.find?_cons_of_pos _ (by simp)

theorem stopping_criteria_nil_mem (s : Str) (ts : List Int) (sss : List Str)
    (stss : List (List Int)) (hmem : [] ∈ sss) :
    (stopping_criteria s ts sss stss).status = "full_stop" := by
  cases hr : check_full_text_match s sss with
  | none =>
    have := (cftm_none_iff s sss).mp hr [] hmem
    rw [strFind_nil] at this
    cases this
  | some r =>
    rw [stopping_criteria_of_full s ts sss stss r hr]
    exact cftm_some_status s sss r hr

/-- C1: `stopping_criteria` applies its checks in strict priority order with
the first applicable winning: the full-text-match result if one exists;
otherwise the partial-token-match result when the token-sequence suffix
overlaps some stop token sequence prefix; otherwise the partial-text-match
result when the text suffix overlaps some stop string prefix; otherwise
no-match. -/
theorem stopping_criteria_priority (s : Str) (ts : List Int) (sss : List Str)
    (stss : List (List Int)) :
    (∀ r, check_full_text_match s sss = some r →
        stopping_criteria s ts sss stss = r)
    ∧ (check_full_text_match s sss = none →
        (∃ sts ∈ stss, sequence_overlap ts sts = true) →
        stopping_criteria s ts sss stss = ⟨"partial_match", none⟩)
    ∧ (check_full_text_match s sss = none →
        ¬ (∃ sts ∈ stss, sequence_overlap ts sts = true) →
        (∃ ss ∈ sss, sequence_overlap s ss = true) →
        stopping_criteria s ts sss stss = ⟨"partial_match", none⟩)
    ∧ (check_full_text_match s sss = none →
        ¬ (∃ sts ∈ stss, sequence_overlap ts sts = true) →
        ¬ (∃ ss ∈ sss, sequence_overlap s ss = true) →
        stopping_criteria s ts sss stss = ⟨"no_match", none⟩) := by
  refine ⟨?_, ?_, ?_, ?_⟩
  · intro r h
    unfold stopping_criteria
    rw [h]
    rfl
  · intro h1 h2
    unfold stopping_criteria
    rw [h1]
    show (((check_partial_token_match ts stss).orElse fun _ =>
      check_partial_text_match s sss).getD ⟨"no_match", none⟩) = _
    rw [cptm_eq_some ts stss h2]
    rfl
  · intro h1 h2 h3
    unfold stopping_criteria
    rw [h1]
    show (((check_partial_token_match ts stss).orElse fun _ =>
      check_partial_text_match s sss).getD ⟨"no_match", none⟩) = _
    rw [cptm_eq_none ts stss h2]
    show (check_partial_text_match s sss).getD ⟨"no_match", none⟩ = _
    rw [cptxt_eq_some s sss h3]
    rfl
  · intro h1 h2 h3
    unfold stopping_criteria
    rw [h1]
    show (((check_partial_token_match ts stss).orElse fun _ =>
      check_partial_text_match s sss).getD ⟨"no_match", none⟩) = _
    rw [cptm_eq_none ts stss h2]
    show (check_partial_text_match s sss).getD ⟨"no_match", none⟩ = _
    rw [cptxt_eq_none s sss h3]
    rfl

/-- Witness for C1: with text `"ab"`, stop string `"bc"` (no full-text match),
token buffer `[5]` and stop token sequence `[5, 6]`, the token-level suffix
overlap applies and `stopping_criteria` reports a partial match. -/
theorem stopping_criteria_priority_witness :
    check_full_text_match ['a', 'b'] [['b', 'c']] = none
    ∧ (∃ sts ∈ [[(5 : Int), 6]], sequence_overlap [(5 : Int)] sts = true)
    ∧ stopping_criteria ['a', 'b'] [(5 : Int)] [['b', 'c']] [[(5 : Int), 6]] =
        ⟨"partial_match", none⟩ :=
  ⟨by decide, by decide,
    (stopping_criteria_priority ['a', 'b'] [(5 : Int)] [['b', 'c']]
      [[(5 : Int), 6]]).2.1 (by decide) (by decide)⟩

/-- C2: whenever a configured stop string occurs in the text,
`check_full_text_match` reports `full_stop`, and it carries the stop string
with the lowest occurrence index; on ties of the occurrence index the
first-configured stop string is carried. -/
theorem check_full_text_match_earliest (s : Str) (stop_strings : List Str) :
    (∀ r, check_full_text_match s stop_strings = some r → r.status = "full_stop")
    ∧ ((∃ ss ∈ stop_strings, strFind s ss ≠ none) →
        check_full_text_match s stop_strings ≠ none)
    ∧ (∀ pre ss post p,
        stop_strings = pre ++ ss :: post →
        strFind s ss = some p →
        (∀ x ∈ stop_strings, ∀ q, strFind s x = some q → p ≤ q) →
        (∀ x ∈ pre, ∀ q, strFind s x = some q → p < q) →
        check_full_text_match s stop_strings = some ⟨"full_stop", some ss⟩) := by
  refine ⟨cftm_some_status s stop_strings, ?_, ?_⟩
  · rintro ⟨ss, hss, hfind⟩ hnone
    exact hfind ((cftm_none_iff s stop_strings).mp hnone ss hss)
  · intro pre ss post p hsplit hfind hmin hfirst
    subst hsplit
    exact cftm_earliest s pre post ss p hfind hmin hfirst

/-- Witness for C2: text `"ab"` with stop strings `["b", "ab"]` in that
configuration order; `"ab"` occurs at index 0, earlier than `"b"` at index 1,
so `"ab"` is carried even though it is configured second. -/
theorem check_full_text_match_earliest_witness :
    strFind ['a', 'b'] ['a', 'b'] = some 0
    ∧ check_full_text_match ['a', 'b'] [['b'], ['a', 'b']] =
        some ⟨"full_stop", some ['a', 'b']⟩ :=
  ⟨by decide,
    (check_full_text_match_earliest ['a', 'b'] [['b'], ['a', 'b']]).2.2
      [['b']] ['a', 'b'] [] 0 rfl (by decide)
      (fun _ _ q _ => Nat.zero_le q)
      (by
        intro x hx q hq
        have hxb : x = ['b'] := by simpa using hx
        subst hxb
        have h1 : strFind ['a', 'b'] ['b'] = some 1 := by decide
        rw [h1] at hq
        cases hq
        decide)⟩

/-- A small concrete tokenizer decode used to instantiate theorems with
hypotheses on concrete inputs: token 1 decodes to `"a"`. -/
def toyDecode : List Int → Str := fun l => if l = [1] then ['a'] else []

/-- A concrete processor configured with the single stop string `"a"`,
whose encoding is `[1]`, with an empty rolling buffer. -/
def toyProcessor : StopStringProcessor := ⟨[['a']], [[1]], toyDecode, []⟩

/-- C3: with a non-empty configured stop-string list, `process_token`
appends the token to the pending buffer and then: on a no-match verdict
resets the buffer and returns no-match; on a partial-match verdict retains
the buffer unchanged and returns partial-match; on a full-stop verdict
returns full-stop carrying the matched stop string and the entire current
buffer as `stop_tokens`. -/
theorem process_token_buffer_discipline (st : StopStringProcessor) (t : Int)
    (hne : st.stop_strings ≠ []) :
    ((stopping_criteria (st.tokenizer_decode (st.token_id_buffer ++ [t]))
        (st.token_id_buffer ++ [t]) st.stop_strings
        st.stop_token_sequences).status = "no_match" →
      st.process_token t = .ok (⟨"no_match", none, none⟩,
        { st with token_id_buffer := [] }))
    ∧ ((stopping_criteria (st.tokenizer_decode (st.token_id_buffer ++ [t]))
        (st.token_id_buffer ++ [t]) st.stop_strings
        st.stop_token_sequences).status = "partial_match" →
      st.process_token t = .ok (⟨"partial_match", none, none⟩,
        { st with token_id_buffer := st.token_id_buffer ++ [t] }))
    ∧ ((stopping_criteria (st.tokenizer_decode (st.token_id_buffer ++ [t]))
        (st.token_id_buffer ++ [t]) st.stop_strings
        st.stop_token_sequences).status = "full_stop" →
      st.process_token t = .ok (⟨"full_stop",
        (stopping_criteria (st.tokenizer_decode (st.token_id_buffer ++ [t]))
          (st.token_id_buffer ++ [t]) st.stop_strings
          st.stop_token_sequences).stop_string,
        some (st.token_id_buffer ++ [t])⟩,
        { st with token_id_buffer := st.token_id_buffer ++ [t] })) := by
  refine ⟨?_, ?_, ?_⟩ <;> intro hs <;> rw [process_token_unfold st t hne]
  · rw [resolve_no_match _ _ hs]
  · rw [resolve_partial_match _ _ hs]
  · rw [resolve_full _ _ hs]

/-- Witness for C3: the toy processor sees token 1 which decodes to the
configured stop string `"a"`, so `process_token` reports full-stop carrying
`"a"` and the whole buffer `[1]`. -/
theorem process_token_buffer_discipline_witness :
    (stopping_criteria
        (toyProcessor.tokenizer_decode (toyProcessor.token_id_buffer ++ [1]))
        (toyProcessor.token_id_buffer ++ [1]) toyProcessor.stop_strings
        toyProcessor.stop_token_sequences).status = "full_stop"
    ∧ toyProcessor.process_token 1 =
        .ok (⟨"full_stop", some ['a'], some [1]⟩,
          ⟨[['a']], [[1]], toyDecode, [1]⟩) :=
  ⟨by decide,
    (process_token_buffer_discipline toyProcessor 1 (by decide)).2.2 (by decide)⟩

/-- C6: the dispatch of `process_token` raises (rather than returning any
result) on an evaluator result whose status is none of `"full_stop"`,
`"partial_match"`, `"no_match"`; an unrecognized status is never silently
treated as no-match. -/
theorem resolve_unknown_status_errors (st : StopStringProcessor)
    (result : StoppingCriteriaResult)
    (h1 : result.status ≠ "full_stop")
    (h2 : result.status ≠ "partial_match")
    (h3 : result.status ≠ "no_match") :
    st.resolve result =
      .error ("Unknown StopProcessorStatus: " ++ result.status) := by
  unfold StopStringProcessor.resolve
  rw [if_neg h3, if_neg h2, if_neg h1]

/-- Witness for C6: an evaluator result with the made-up status `"bogus"`
makes the dispatch fail loudly. -/
theorem resolve_unknown_status_errors_witness :
    ("bogus" : String) ≠ "no_match"
    ∧ toyProcessor.resolve ⟨"bogus", none⟩ =
        .error ("Unknown StopProcessorStatus: " ++ "bogus") :=
  ⟨by decide,
    resolve_unknown_status_errors toyProcessor ⟨"bogus", none⟩
      (by decide) (by decide) (by decide)⟩

/-- C10: if the configured stop-string list contains the empty string, the
full-text check finds it at position 0 of any text (`strFind s "" = 0`), so
`stopping_criteria` reports `full_stop` for every text and token sequence,
and a freshly initialized `StopStringProcessor` reports full-stop on the
very first token processed. -/
theorem empty_stop_string_full_stop :
    (∀ s : Str, strFind s [] = some 0)
    ∧ (∀ (s : Str) (ts : List Int) (sss : List Str) (stss : List (List Int)),
        [] ∈ sss → (stopping_criteria s ts sss stss).status = "full_stop")
    ∧ (∀ (sss : List Str) (enc : Str → List Int) (dec : List Int → Str)
        (t : Int), [] ∈ sss →
        ∃ res st',
          (StopStringProcessor.init sss enc dec).process_token t =
            .ok (res, st')
          ∧ res.status = "full_stop") := by
  refine ⟨strFind_nil, stopping_criteria_nil_mem, ?_⟩
  intro sss enc dec t hmem
  have hne : sss ≠ [] := List.ne_nil_of_mem hmem
  refine ⟨⟨"full_stop",
    (stopping_criteria (dec [t]) [t] sss (sss.map enc)).stop_string,
    some [t]⟩,
    { StopStringProcessor.init sss enc dec with token_id_buffer := [t] },
    ?_, rfl⟩
  rw [process_token_unfold _ t hne]
  simp only [StopStringProcessor.init]
  rw [resolve_full _ _ (stopping_criteria_nil_mem _ _ sss _ hmem)]
  rfl

/-- Witness for C10: with the stop-string list `[""]`, processing the very
first token reports full-stop. -/
theorem empty_stop_string_full_stop_witness :
    ([] : Str) ∈ [([] : Str)]
    ∧ ∃ res st',
        (StopStringProcessor.init [([] : Str)] (fun _ => [])
          (fun _ => [])).process_token 0 = .ok (res, st')
        ∧ res.status = "full_stop" :=
  ⟨by decide,
    empty_stop_string_full_stop.2.2 [([] : Str)] (fun _ => []) (fun _ => []) 0
      (by decide)⟩

/-! ### The generation loop of `generate.py`

`create_generator` in `generate.py` wraps the external token source
`mlx_lm.utils.stream_generate` (a third-party dependency) and the
`StopProcessor` imported from `mlx_engine.stop_processor`, a module of this
repository that is not under `src/`; the latter's interface is modelled from
the spec below.  Model loading, sampler and logits-processor setup touch only
external libraries and are outside the stop-detection/streaming core the
claims are about. -/

/-- `MAX_TOP_LOGPROBS` from `generate.py`. -/
def MAX_TOP_LOGPROBS : Nat := 10

/-- Modelled from the spec: `TokenRecord` (§3) — the `TokenLogprob` named
tuple of `mlx_engine.utils.top_logprobs`, which is not under `src/`: token
id, decoded text fragment and log-probability.  The log-probability (a float
the loop never computes with, only stores) is carried opaquely as `Int`. -/
structure TokenLogprob where
  token : Int
  text : Str
  logprob : Int
deriving DecidableEq, Repr

/-- Modelled from the spec: `StopConditionDescriptor` (§3) — the
`GenerationStopCondition` of `mlx_engine.stop_processor`, which is not under
`src/`: why generation ended, and which stop string (if any) matched. -/
structure GenerationStopCondition where
  stop_reason : String
  stop_string : Option Str
deriving DecidableEq, Repr

/-- `GenerationResult` from `generate.py`: text segment, token records,
top-logprob records and an optional stop condition. -/
structure GenerationResult where
  text : Str
  tokens : List TokenLogprob
  top_logprobs : List (List TokenLogprob)
  stop_condition : Option GenerationStopCondition
deriving DecidableEq, Repr

/-- Modelled from the spec: the result of the external
`StopProcessor.process_token` of `mlx_engine.stop_processor` (not under
`src/`) — the generation loop reads only its `status` and `stop_reason`
fields. -/
structure StopProcessorResult where
  status : String
  stop_reason : String
deriving DecidableEq, Repr

/-- One iteration's worth of data from the external token source
`mlx_lm.utils.stream_generate` together with the externally computed values
the loop body consumes: the generated token, `tokenizer.decode(token)`, the
`generation_result.text` fragment, `float(logprobs[token])`, and the
pre-summarized `summarize_top_logprobs(...)` list. -/
structure StreamStep where
  token : Int
  decoded : Str
  fragment : Str
  logprob : Int
  top : List TokenLogprob
deriving DecidableEq, Repr

/-- The local mutable state of the `create_generator` loop: the two per-turn
buffers, the cumulative `text`, the stop-processor state `sp` (abstract,
since `StopProcessor` is external to `src/`), and the last
`stop_processor_result` (initially Python `None`). -/
structure LoopState (σ : Type) where
  token_buffer : List TokenLogprob
  top_logprobs_buffer : List (List TokenLogprob)
  text : Str
  sp : σ
  last_result : Option StopProcessorResult
deriving DecidableEq

/-- The body of the `for generation_result in stream_generate(...)` loop of
`create_generator`: record the token (and, when `top_logprobs` is non-zero,
its top-k summary), feed the token to the stop processor, extend the
cumulative text, then either break on a non-EOS full stop, keep buffering on
a partial match, flush a `GenerationResult` with null stop condition when
the cumulative text is non-empty, or keep accumulating.  Returns the results
yielded at this step, the updated state, and whether the loop breaks. -/
def generator_step {σ : Type} (top_logprobs : Nat)
    (sp_process : σ → Int → StopProcessorResult × σ)
    (st : LoopState σ) (s : StreamStep) :
    List GenerationResult × LoopState σ × Bool :=
  let token_buffer := st.token_buffer ++ [⟨s.token, s.decoded, s.logprob⟩]
  let top_buffer := if top_logprobs ≠ 0 then st.top_logprobs_buffer ++ [s.top]
    else st.top_logprobs_buffer
  let rp := sp_process st.sp s.token
  let text := st.text ++ s.fragment
  if rp.1.status = "full_stop" ∧ rp.1.stop_reason ≠ "eos_token" then
    ([], ⟨token_buffer, top_buffer, text, rp.2, some rp.1⟩, true)
  else if rp.1.status = "partial_match" then
    ([], ⟨token_buffer, top_buffer, text, rp.2, some rp.1⟩, false)
  else if text ≠ [] then
    ([⟨text, token_buffer, top_buffer, none⟩], ⟨[], [], [], rp.2, some rp.1⟩, false)
  else
    ([], ⟨token_buffer, top_buffer, text, rp.2, some rp.1⟩, false)

/-- The `for` loop of `create_generator` over the steps the external token
source yields, threading the loop state and concatenating yielded results;
a `true` break flag stops consuming further steps. -/
def generatorLoop {σ : Type} (top_logprobs : Nat)
    (sp_process : σ → Int → StopProcessorResult × σ) :
    List StreamStep → LoopState σ → List GenerationResult × LoopState σ
  | [], st => ([], st)
  | s :: rest, st =>
    match generator_step top_logprobs sp_process st s with
    | (out, st', true) => (out, st')
    | (out, st', false) =>
      match generatorLoop top_logprobs sp_process rest st' with
      | (out2, st'') => (out ++ out2, st'')

/-- `create_generator` from `generate.py`, restricted to the
stop-detection/streaming core: normalize `top_logprobs` (`None` becomes 0)
and fail with `ValueError` when it exceeds `MAX_TOP_LOGPROBS`; otherwise run
the loop and yield one final `GenerationResult` built from
`stop_processor.finalize`.  External collaborators are parameters: `steps`
is what `mlx_lm.utils.stream_generate` yields for this run (`max_tokens` is
forwarded to that external source and never read otherwise — the function
performs no validation of it), and `sp_init`/`sp_process`/`sp_finalize`
model the `StopProcessor` of `mlx_engine.stop_processor` (not under `src/`).
Modelled from the spec: `finalize` returns the final text and a non-null
stop-condition descriptor (§3, §4.4), hence its non-optional result type. -/
def create_generator {σ : Type} (sp_init : σ)
    (sp_process : σ → Int → StopProcessorResult × σ)
    (sp_finalize : σ → Str → Option StopProcessorResult →
      Str × GenerationStopCondition)
    (steps : List StreamStep) (top_logprobs : Option Nat) (max_tokens : Int) :
    Except String (List GenerationResult) :=
  let top_logprobs := top_logprobs.getD 0
  if top_logprobs > MAX_TOP_LOGPROBS then
    .error ("top_logprobs must be less than or equal to " ++
      toString MAX_TOP_LOGPROBS)
  else
    match generatorLoop top_logprobs sp_process steps ⟨[], [], [], sp_init, none⟩ with
    | (out, stf) =>
      match sp_finalize stf.sp stf.text stf.last_result with
      | (text, cond) =>
        .ok (out ++ [⟨text, stf.token_buffer, stf.top_logprobs_buffer, some cond⟩])

/-- A trivial stop-processor: stateless, always reporting no-match. -/
def spProcessNoMatch : Unit → Int → StopProcessorResult × Unit :=
  fun _ _ => (⟨"no_match", ""⟩, ())

/-- A trivial finalizer: keeps the text and reports an end-of-sequence stop
condition. -/
def spFinalizeEos : Unit → Str → Option StopProcessorResult →
    Str × GenerationStopCondition :=
  fun _ text _ => (text, ⟨"eos_token", none⟩)

theorem generator_step_outputs_none {σ : Type} (tl : Nat)
    (spf : σ → Int → StopProcessorResult × σ) (st : LoopState σ)
    (s : StreamStep) :
    ∀ r ∈ (generator_step tl spf st s).1, r.stop_condition = none := by
  intro r hr
  simp only [generator_step] at hr
  split at hr
  · simp at hr
  · split at hr
    · simp at hr
    · split at hr
      · simp at hr
        rw [hr]
      · simp at hr

theorem generatorLoop_outputs_none {σ : Type} (tl : Nat)
    (spf : σ → Int → StopProcessorResult × σ) :
    ∀ (steps : List StreamStep) (st : LoopState σ),
      ∀ r ∈ (generatorLoop tl spf steps st).1, r.stop_condition = none := by
  intro steps
  induction steps with
  | nil => intro st r hr; simp [generatorLoop] at hr
  | cons s rest ih =>
    intro st r hr
    rcases hgs : generator_step tl spf st s with ⟨out, st', brk⟩
    have hout : ∀ x ∈ out, x.stop_condition = none := by
      intro x hx
      exact generator_step_outputs_none tl spf st s x (by rw [hgs]; exact hx)
    cases brk with
    | true =>
      rw [generatorLoop, hgs] at hr
      exact hout r hr
    | false =>
      rw [generatorLoop, hgs] at hr
      dsimp only at hr
      rcases hloop : generatorLoop tl spf rest st' with ⟨out2, st''⟩
      rw [hloop] at hr
      dsimp only at hr
      rcases List.mem_append.mp hr with h | h
      · exact hout r h
      · exact ih st' r (by rw [hloop]; exact h)

/-- C4: every terminating run yields a non-empty result sequence in which
exactly one `GenerationResult` carries a non-null `stop_condition`, and it is
the last one; every result yielded before it carries a null
`stop_condition`. -/
theorem create_generator_single_stop_condition {σ : Type} (sp_init : σ)
    (sp_process : σ → Int → StopProcessorResult × σ)
    (sp_finalize : σ → Str → Option StopProcessorResult →
      Str × GenerationStopCondition)
    (steps : List StreamStep) (top_logprobs : Option Nat) (max_tokens : Int)
    (rs : List GenerationResult)
    (h : create_generator sp_init sp_process sp_finalize steps top_logprobs
      max_tokens = .ok rs) :
    ∃ earlier last, rs = earlier ++ [last] ∧ last.stop_condition ≠ none ∧
      ∀ r ∈ earlier, r.stop_condition = none := by
  simp only [create_generator] at h
  split at h
  · cases h
  · rcases hloop : generatorLoop (top_logprobs.getD 0) sp_process steps
      ⟨[], [], [], sp_init, none⟩ with ⟨out, stf⟩
    rw [hloop] at h
    dsimp only at h
    rcases hfin : sp_finalize stf.sp stf.text stf.last_result with ⟨text, cond⟩
    rw [hfin] at h
    dsimp only at h
    injection h with h2
    subst h2
    refine ⟨out, ⟨text, stf.token_buffer, stf.top_logprobs_buffer, some cond⟩,
      rfl, by simp, ?_⟩
    intro r hr
    exact generatorLoop_outputs_none _ _ steps _ r (by rw [hloop]; exact hr)

/-- Witness for C4: a one-step run on the trivial stop processor yields one
intermediate result with null stop condition and a final result with a
non-null one. -/
theorem create_generator_single_stop_condition_witness :
    create_generator () spProcessNoMatch spFinalizeEos
      [⟨7, ['x'], ['x'], 0, []⟩] none 5 =
      .ok [⟨['x'], [⟨7, ['x'], 0⟩], [], none⟩,
        ⟨[], [], [], some ⟨"eos_token", none⟩⟩]
    ∧ ∃ earlier last,
        ([⟨['x'], [⟨7, ['x'], 0⟩], [], none⟩,
          ⟨[], [], [], some ⟨"eos_token", none⟩⟩] : List GenerationResult) =
          earlier ++ [last]
        ∧ last.stop_condition ≠ none
        ∧ ∀ r ∈ earlier, r.stop_condition = none :=
  ⟨by rfl,
    create_generator_single_stop_condition () spProcessNoMatch spFinalizeEos
      [⟨7, ['x'], ['x'], 0, []⟩] none 5
      [⟨['x'], [⟨7, ['x'], 0⟩], [], none⟩,
        ⟨[], [], [], some ⟨"eos_token", none⟩⟩] (by rfl)⟩

/-- C5: in one loop step, a partial-match verdict appends the decoded
fragment to the cumulative text and yields nothing, retaining all buffers;
a no-match verdict appends the fragment and yields a `GenerationResult`
(accumulated text, buffered tokens, buffered top-logprobs, null stop
condition) exactly when the cumulative text is non-empty, after which all
three per-turn buffers are cleared. -/
theorem generator_step_flush_discipline {σ : Type} (tl : Nat)
    (spf : σ → Int → StopProcessorResult × σ) (st : LoopState σ)
    (s : StreamStep) (r : StopProcessorResult) (sp' : σ)
    (h : spf st.sp s.token = (r, sp')) :
    (r.status = "partial_match" →
      generator_step tl spf st s =
        ([], ⟨st.token_buffer ++ [⟨s.token, s.decoded, s.logprob⟩],
          if tl ≠ 0 then st.top_logprobs_buffer ++ [s.top]
            else st.top_logprobs_buffer,
          st.text ++ s.fragment, sp', some r⟩, false))
    ∧ (r.status = "no_match" →
        (st.text ++ s.fragment ≠ [] →
          generator_step tl spf st s =
            ([⟨st.text ++ s.fragment,
                st.token_buffer ++ [⟨s.token, s.decoded, s.logprob⟩],
                if tl ≠ 0 then st.top_logprobs_buffer ++ [s.top]
                  else st.top_logprobs_buffer,
                none⟩],
              ⟨[], [], [], sp', some r⟩, false))
        ∧ (st.text ++ s.fragment = [] →
          generator_step tl spf st s =
            ([], ⟨st.token_buffer ++ [⟨s.token, s.decoded, s.logprob⟩],
              if tl ≠ 0 then st.top_logprobs_buffer ++ [s.top]
                else st.top_logprobs_buffer,
              st.text ++ s.fragment, sp', some r⟩, false))) := by
  refine ⟨?_, fun hnm => ⟨?_, ?_⟩⟩
  · intro hs
    simp [generator_step, h, hs]
  · intro htext
    simp [generator_step, h, hnm, htext]
  · intro htext
    simp [generator_step, h, hnm, htext]

/-- Witness for C5: the trivial stop processor reports no-match on token 7
whose fragment is `"x"`, so the step flushes one result with null stop
condition and clears the buffers. -/
theorem generator_step_flush_discipline_witness :
    spProcessNoMatch () 7 = (⟨"no_match", ""⟩, ())
    ∧ ([] : Str) ++ ['x'] ≠ []
    ∧ generator_step 0 spProcessNoMatch ⟨[], [], [], (), none⟩
        ⟨7, ['x'], ['x'], 0, []⟩ =
        ([⟨['x'], [⟨7, ['x'], 0⟩], [], none⟩],
          ⟨[], [], [], (), some ⟨"no_match", ""⟩⟩, false) :=
  ⟨rfl, by decide,
    ((generator_step_flush_discipline 0 spProcessNoMatch ⟨[], [], [], (), none⟩
      ⟨7, ['x'], ['x'], 0, []⟩ ⟨"no_match", ""⟩ () rfl).2 rfl).1 (by decide)⟩

/-- C8: a run configured with `top_logprobs` above `MAX_TOP_LOGPROBS` fails
with the `ValueError` of `generate.py` whatever the token source yields —
the failure precedes requesting any token — and no `GenerationResult` is
produced. -/
theorem create_generator_top_logprobs_cap {σ : Type} (sp_init : σ)
    (sp_process : σ → Int → StopProcessorResult × σ)
    (sp_finalize : σ → Str → Option StopProcessorResult →
      Str × GenerationStopCondition)
    (top_logprobs : Option Nat) (max_tokens : Int)
    (h : MAX_TOP_LOGPROBS < top_logprobs.getD 0) :
    ∀ steps, create_generator sp_init sp_process sp_finalize steps
      top_logprobs max_tokens =
      .error ("top_logprobs must be less than or equal to " ++
        toString MAX_TOP_LOGPROBS) := by
  intro steps
  simp only [create_generator]
  rw [if_pos h]

/-- Witness for C8: `top_logprobs = 11` exceeds the cap of 10 and the run
errors for any token source, here the empty one. -/
theorem create_generator_top_logprobs_cap_witness :
    MAX_TOP_LOGPROBS < (some 11 : Option Nat).getD 0
    ∧ create_generator () spProcessNoMatch spFinalizeEos [] (some 11) 0 =
        .error ("top_logprobs must be less than or equal to " ++
          toString MAX_TOP_LOGPROBS) :=
  ⟨by decide,
    create_generator_top_logprobs_cap () spProcessNoMatch spFinalizeEos
      (some 11) 0 (by decide) []⟩

/-- C9 counterexample: a run configured with the negative maximum token
count `-1` does not fail: `create_generator` performs no validation of
`max_tokens` and returns results normally, so no configuration error is
surfaced. -/
theorem create_generator_neg_max_tokens_ok :
    create_generator () spProcessNoMatch spFinalizeEos [] none (-1) =
      .ok [⟨[], [], [], some ⟨"eos_token", none⟩⟩] := by rfl

/-- C9 (amended): a negative maximum token count raises no configuration
error: whenever `top_logprobs` is within the cap, `create_generator`
returns `.ok` results, forwarding `max_tokens` unvalidated to the external
token source; the only fail-fast configuration check is the
`top_logprobs` cap. -/
theorem create_generator_no_max_tokens_check {σ : Type} (sp_init : σ)
    (sp_process : σ → Int → StopProcessorResult × σ)
    (sp_finalize : σ → Str → Option StopProcessorResult →
      Str × GenerationStopCondition)
    (steps : List StreamStep) (top_logprobs : Option Nat) (max_tokens : Int)
    (hmt : max_tokens < 0)
    (htl : top_logprobs.getD 0 ≤ MAX_TOP_LOGPROBS) :
    ∃ rs, create_generator sp_init sp_process sp_finalize steps top_logprobs
      max_tokens = .ok rs := by
  simp only [create_generator]
  rw [if_neg (Nat.not_lt.mpr htl)]
  rcases hloop : generatorLoop (top_logprobs.getD 0) sp_process steps
    ⟨[], [], [], sp_init, none⟩ with ⟨out, stf⟩
  exact ⟨_, rfl⟩

/-- Witness for the amended C9: `max_tokens = -1` with an in-cap
`top_logprobs` produces `.ok` results. -/
theorem create_generator_no_max_tokens_check_witness :
    (-1 : Int) < 0
    ∧ ((none : Option Nat).getD 0 ≤ MAX_TOP_LOGPROBS)
    ∧ ∃ rs, create_generator () spProcessNoMatch spFinalizeEos [] none (-1) =
        .ok rs :=
  ⟨by decide, by decide,
    create_generator_no_max_tokens_check () spProcessNoMatch spFinalizeEos []
      none (-1) (by decide) (by decide)⟩

end MlxEngine
